import Mathlib

/-!
Verification of the lead-capture form component
(`src/components/LeadCaptureForm.tsx`).

The repository is a small React application.  The component keeps four
pieces of local state (`formData`, `validationErrors`, `fieldStates`,
`isSubmitting`) and reads `submitted`, `sessionLeads`, `setSubmitted` and
`addLead` from a shared lead store.  We embed this state as one record and
the event handlers `handleInputChange` and `handleSubmit` as state
transformers; `handleSubmit` additionally returns the trace of observable
effects (the network call, toasts, the store operations) in program order.

The modules `@/lib/validation` and `@/lib/lead-store` are imported by the
component but are not among the repository's source files; the definitions
modelled from the spec are marked as such in their doc comments.
-/

namespace LeadCapture

/-- The `formData` record of the component: `{ name: '', email: '', industry: '' }`. -/
structure FormData where
  name : String
  email : String
  industry : String
deriving DecidableEq, Repr

/-- A `ValidationError` as used by the component: a field name and a message. -/
structure ValidationError where
  field : String
  message : String
deriving DecidableEq, Repr

/-- One entry of the `fieldStates` record: `{ touched: ..., valid: ... }`. -/
structure FieldState where
  touched : Bool
  valid : Bool
deriving DecidableEq, Repr

/-- The `fieldStates` record, one `FieldState` per form field. -/
structure FieldStates where
  name : FieldState
  email : FieldState
  industry : FieldState
deriving DecidableEq, Repr

/-- A lead as built in `handleSubmit`: name, email, industry and the
`submitted_at` timestamp string (`new Date().toISOString()`). -/
structure Lead where
  name : String
  email : String
  industry : String
  submitted_at : String
deriving DecidableEq, Repr

/-- The combined state of the component: the four `useState` pieces
(`formData`, `validationErrors`, `fieldStates`, `isSubmitting`) together
with the two store values it reads (`submitted`, `sessionLeads`). -/
structure ComponentState where
  formData : FormData
  validationErrors : List ValidationError
  fieldStates : FieldStates
  isSubmitting : Bool
  submitted : Bool
  sessionLeads : List Lead
deriving DecidableEq, Repr

/-- Characters of a string with leading and trailing whitespace removed;
used to embed the JavaScript `value.trim()` calls with structural
recursion only. -/
def trimChars (cs : List Char) : List Char :=
  ((cs.dropWhile (fun c => c.isWhitespace)).reverse.dropWhile
    (fun c => c.isWhitespace)).reverse

/-- Split a character list at every occurrence of a separator. -/
def splitOnChar (sep : Char) : List Char → List (List Char)
  | [] => [[]]
  | c :: rest =>
      let r := splitOnChar sep rest
      if c = sep then [] :: r
      else
        match r with
        | [] => [[c]]
        | h :: t => (c :: h) :: t

/-- Modelled from the spec: `validateName` lives in `@/lib/validation`,
which is not among the repository's source files.  The component's error
message for it is "Name must be at least 2 characters", so it accepts a
value whose trimmed length is at least 2. -/
def validateName (value : String) : Bool :=
  decide ((trimChars value.data).length ≥ 2)

/-- Modelled from the spec: `validateEmail` lives in `@/lib/validation`,
which is not among the repository's source files.  The component's error
message for it is "Please enter a valid email address", so it accepts a
well-formed address: exactly one `@` with a nonempty local part, and a
domain consisting of at least two nonempty dot-separated labels. -/
def validateEmail (value : String) : Bool :=
  match splitOnChar '@' (trimChars value.data) with
  | [loc, dom] =>
      decide (loc.length > 0) &&
        (let parts := splitOnChar '.' dom
         decide (parts.length ≥ 2) && parts.all (fun p => decide (p.length > 0)))
  | _ => false

/-- Result of the component's `validateField`: `{ isValid, errorMessage }`. -/
structure FieldCheck where
  isValid : Bool
  errorMessage : String
deriving DecidableEq, Repr

/-- The component's `validateField(field, value)`: the `switch` over the
three field names with required/format checks, returning
`{ isValid, errorMessage }`. -/
def validateField (field value : String) : FieldCheck :=
  if field == "name" then
    if trimChars value.data = [] then ⟨false, "Name is required"⟩
    else if !validateName value then ⟨false, "Name must be at least 2 characters"⟩
    else ⟨true, ""⟩
  else if field == "email" then
    if trimChars value.data = [] then ⟨false, "Email is required"⟩
    else if !validateEmail value then ⟨false, "Please enter a valid email address"⟩
    else ⟨true, ""⟩
  else if field == "industry" then
    if trimChars value.data = [] then ⟨false, "Please select your industry"⟩
    else ⟨true, ""⟩
  else ⟨false, ""⟩

/-- Errors contributed by one field to the whole-form validation result. -/
def checkOne (field value : String) : List ValidationError :=
  if (validateField field value).isValid then []
  else [⟨field, (validateField field value).errorMessage⟩]

/-- Modelled from the spec: `validateLeadForm` lives in `@/lib/validation`,
which is not among the repository's source files.  Per the spec it
validates the form data client-side; it returns the list of validation
errors, at most one per field, in field order. -/
def validateLeadForm (fd : FormData) : List ValidationError :=
  checkOne "name" fd.name ++ checkOne "email" fd.email ++
    checkOne "industry" fd.industry

/-- The spread update `{ ...prev, [field]: value }` on `formData`,
restricted to the three field names the component uses. -/
def setField (fd : FormData) (field value : String) : FormData :=
  if field == "name" then { fd with name := value }
  else if field == "email" then { fd with email := value }
  else if field == "industry" then { fd with industry := value }
  else fd

/-- The `setFieldStates` update in `handleInputChange`: mark one field as
touched, keeping the rest of its state. -/
def touchField (fs : FieldStates) (field : String) : FieldStates :=
  if field == "name" then { fs with name := { fs.name with touched := true } }
  else if field == "email" then { fs with email := { fs.email with touched := true } }
  else if field == "industry" then
    { fs with industry := { fs.industry with touched := true } }
  else fs

/-- The real-time validation update of `validationErrors` in
`handleInputChange`: on a valid value, filter out the field's entry; on an
error message, replace the existing entry for the field in place
(`prev.map`) or append a new one; otherwise leave the list unchanged. -/
def updateErrors (errors : List ValidationError) (field : String)
    (check : FieldCheck) : List ValidationError :=
  if check.isValid then
    errors.filter (fun e => !(e.field == field))
  else if !(check.errorMessage == "") then
    match errors.find? (fun e => e.field == field) with
    | some _ =>
        errors.map (fun e =>
          if e.field == field then { e with message := check.errorMessage } else e)
    | none => errors ++ [⟨field, check.errorMessage⟩]
  else errors

/-- The component's `handleInputChange(field, value)`: store the new value,
mark the field touched, and run real-time validation on the new value. -/
def handleInputChange (s : ComponentState) (field value : String) :
    ComponentState :=
  { s with
    formData := setField s.formData field value
    fieldStates := touchField s.fieldStates field
    validationErrors :=
      updateErrors s.validationErrors field (validateField field value) }

/-- Outcome of the one network call
`supabase.functions.invoke('send-confirmation', ...)`: it resolves with no
error, resolves with an `error` value, or throws. -/
inductive EmailOutcome
  | ok
  | emailError
  | thrown
deriving DecidableEq, Repr

/-- Observable effects of `handleSubmit`, recorded in program order. -/
inductive Event
  | emailCall
  | toastEmailError
  | emailErrorReturn
  | addLeadEvent
  | toastSuccess
  | setSubmittedTrue
  | catchHandler
  | toastUnexpectedError
  | toastValidationError
deriving DecidableEq, Repr

/-- The `setFieldStates` value at the top of `handleSubmit`: every field
`{ touched: true, valid: false }`. -/
def allTouched : FieldStates :=
  ⟨⟨true, false⟩, ⟨true, false⟩, ⟨true, false⟩⟩

/-- The reset value of `fieldStates`: every field
`{ touched: false, valid: false }`. -/
def allUntouched : FieldStates :=
  ⟨⟨false, false⟩, ⟨false, false⟩, ⟨false, false⟩⟩

/-- The reset value of `formData`: all three fields empty. -/
def emptyForm : FormData := ⟨"", "", ""⟩

/-- The component's `handleSubmit`.  It marks all fields touched, runs
`validateLeadForm` and stores the result.  With no errors it enters the
submitting phase and performs the one network call, whose outcome is the
`outcome` argument; `now` stands for `new Date().toISOString()`.  On a
returned email error it shows an error toast and returns early; on a
success it appends the lead to the store, shows the success toast, sets
`submitted` and resets the form state; on a thrown exception the `catch`
shows an error toast; the `finally` clears `isSubmitting` in every one of
those branches.  With validation errors it only shows the validation
toast.  The result is the new state and the trace of observable effects. -/
def handleSubmit (s : ComponentState) (outcome : EmailOutcome) (now : String) :
    ComponentState × List Event :=
  let s1 : ComponentState := { s with fieldStates := allTouched }
  let errors := validateLeadForm s1.formData
  let s2 : ComponentState := { s1 with validationErrors := errors }
  if errors = [] then
    let s3 : ComponentState := { s2 with isSubmitting := true }
    match outcome with
    | .emailError =>
        ({ s3 with isSubmitting := false },
         [.emailCall, .toastEmailError, .emailErrorReturn])
    | .thrown =>
        ({ s3 with isSubmitting := false },
         [.emailCall, .catchHandler, .toastUnexpectedError])
    | .ok =>
        let lead : Lead :=
          ⟨s3.formData.name, s3.formData.email, s3.formData.industry, now⟩
        let s4 : ComponentState :=
          { s3 with sessionLeads := s3.sessionLeads ++ [lead] }
        let s5 : ComponentState := { s4 with submitted := true }
        let s6 : ComponentState :=
          { s5 with
            formData := emptyForm
            validationErrors := []
            fieldStates := allUntouched
            isSubmitting := false }
        (s6, [.emailCall, .addLeadEvent, .toastSuccess, .setSubmittedTrue])
  else
    (s2, [.toastValidationError])

/-- The two top-level views the component can render. -/
inductive View
  | success
  | form
deriving DecidableEq, Repr

/-- The render function of the component: `if (submitted)` return the
success view, otherwise the form view. -/
def render (s : ComponentState) : View :=
  if s.submitted then View.success else View.form

/-- The mount effect `useEffect(() => { setSubmitted(false); }, ...)`. -/
def mount (s : ComponentState) : ComponentState :=
  { s with submitted := false }

/-- The `disabled` expression of the submit button:
`isSubmitting || validationErrors.length > 0`. -/
def buttonDisabled (s : ComponentState) : Bool :=
  s.isSubmitting || decide (s.validationErrors.length > 0)

/-- Modelled from the spec: the lead store (`@/lib/lead-store` is not among
the repository's source files) is the "Session store: in-memory,
process-local list of leads collected since page load; not persisted",
together with the `submitted` flag the component reads from it. -/
structure LeadStore where
  sessionLeads : List Lead
  submitted : Bool
deriving DecidableEq, Repr

/-- Modelled from the spec: the store state at page load — no leads have
been collected yet and nothing was submitted. -/
def initialStore : LeadStore := ⟨[], false⟩

/-- The operations the component performs on the lead store. -/
inductive StoreOp
  | addLead (l : Lead)
  | setSubmitted (b : Bool)
deriving DecidableEq, Repr

/-- Modelled from the spec: applying one store operation — `addLead`
appends the lead to the session list, `setSubmitted` sets the flag. -/
def applyOp (st : LeadStore) : StoreOp → LeadStore
  | .addLead l => { st with sessionLeads := st.sessionLeads ++ [l] }
  | .setSubmitted b => { st with submitted := b }

/-- The store state reached from page load by a sequence of operations. -/
def runOps (ops : List StoreOp) : LeadStore :=
  ops.foldl applyOp initialStore

/-- Modelled from the spec: the store is not persisted, so a page refresh
discards it and starts again from the page-load state. -/
def pageRefresh (_ : LeadStore) : LeadStore := initialStore

/-- The leads added by a sequence of store operations, in order. -/
def leadsOf (ops : List StoreOp) : List Lead :=
  ops.filterMap (fun op =>
    match op with
    | .addLead l => some l
    | _ => none)

/-- A concrete valid form: every field passes validation. -/
def fd0 : FormData := ⟨"John Doe", "john@example.com", "technology"⟩

/-- A concrete component state holding the valid form `fd0`, with pristine
field states and an empty session. -/
def s0 : ComponentState := ⟨fd0, [], allUntouched, false, false, []⟩

/-- A concrete component state holding an entirely empty form, which fails
validation on all three fields. -/
def sBad : ComponentState := ⟨emptyForm, [], allUntouched, false, false, []⟩

/-- The component's `resetForm`: clear the form data, the validation
errors and the field states, and clear the submitted flag. -/
def resetForm (s : ComponentState) : ComponentState :=
  { s with
    formData := emptyForm
    validationErrors := []
    fieldStates := allUntouched
    submitted := false }

/-- The value of a named field of the form data, as the component reads
it with `formData[field]`. -/
def getField (fd : FormData) (field : String) : String :=
  if field == "name" then fd.name
  else if field == "email" then fd.email
  else if field == "industry" then fd.industry
  else ""

/-- The component state at page load: the `useState` initial values
(empty form, no errors, untouched fields, not submitting) together with
the page-load store (no leads, not submitted). -/
def initialComponentState : ComponentState :=
  ⟨emptyForm, [], allUntouched, false, false, []⟩

/-- The component states the application can actually be in: the initial
state, followed by any sequence of input edits, submissions, form resets
and remounts. -/
inductive Reachable : ComponentState → Prop
  | init : Reachable initialComponentState
  | input (field value : String) {s : ComponentState} :
      Reachable s → Reachable (handleInputChange s field value)
  | submit (outcome : EmailOutcome) (now : String) {s : ComponentState} :
      Reachable s → Reachable (handleSubmit s outcome now).1
  | reset {s : ComponentState} : Reachable s → Reachable (resetForm s)
  | remount {s : ComponentState} : Reachable s → Reachable (mount s)

/-- Run-time invariant of the component state: no `valid` flag is ever
true, `isSubmitting` is false between events, any field holding a
nonempty value has been marked touched, and every stored validation error
names one of the three fields and reflects the current value of that
field. -/
abbrev StateInv (s : ComponentState) : Prop :=
  (s.fieldStates.name.valid = false ∧ s.fieldStates.email.valid = false ∧
    s.fieldStates.industry.valid = false) ∧
  s.isSubmitting = false ∧
  (trimChars s.formData.name.data ≠ [] → s.fieldStates.name.touched = true) ∧
  (trimChars s.formData.email.data ≠ [] → s.fieldStates.email.touched = true) ∧
  (trimChars s.formData.industry.data ≠ [] → s.fieldStates.industry.touched = true) ∧
  ∀ e ∈ s.validationErrors,
    (e.field = "name" ∨ e.field = "email" ∨ e.field = "industry") ∧
      (validateField e.field (getField s.formData e.field)).isValid = false

/-- The reachable state just before a valid submission: the initial state
after typing a valid name and email and selecting an industry. -/
def sReady : ComponentState :=
  handleInputChange
    (handleInputChange (handleInputChange initialComponentState "name" "John Doe")
      "email" "john@example.com")
    "industry" "technology"

end LeadCapture
namespace LeadCapture

/-- The session-lead list after folding store operations from any start
state: the start state's list followed by the leads the operations add. -/
theorem foldl_sessionLeads (l : List StoreOp) :
    ∀ st : LeadStore, (l.foldl applyOp st).sessionLeads = st.sessionLeads ++ leadsOf l := by
  induction l with
  | nil => intro st; simp [leadsOf]
  | cons op rest ih =>
      intro st
      cases op with
      | addLead a => simp [applyOp, leadsOf, ih]
      | setSubmitted b => simp [applyOp, leadsOf, ih]

/-- Whole-form validation produces at most one error per field: the field
names of its result are pairwise distinct. -/
theorem validateLeadForm_fields_nodup (fd : FormData) :
    ((validateLeadForm fd).map (fun e => e.field)).Nodup := by
  unfold validateLeadForm checkOne
  by_cases h1 : (validateField "name" fd.name).isValid <;>
    by_cases h2 : (validateField "email" fd.email).isValid <;>
      by_cases h3 : (validateField "industry" fd.industry).isValid <;>
        simp [h1, h2, h3]

/-- The real-time error update preserves distinctness of the error list's
field names: filtering drops entries, the in-place replacement keeps every
field name, and the append case only fires when the field had no entry. -/
theorem updateErrors_fields_nodup (errors : List ValidationError) (field : String)
    (check : FieldCheck) (h : (errors.map (fun e => e.field)).Nodup) :
    ((updateErrors errors field check).map (fun e => e.field)).Nodup := by
  unfold updateErrors
  split
  · exact h.sublist (List.Sublist.map _ (List.filter_sublist errors))
  · split
    · split
      · rw [List.map_map]
        have hcomp : ((fun e : ValidationError => e.field) ∘ (fun e : ValidationError =>
            if e.field == field then { e with message := check.errorMessage } else e))
            = fun e : ValidationError => e.field := by
          funext e
          simp only [Function.comp]
          split <;> rfl
        rw [hcomp]
        exact h
      · rename_i hnone
        have hf : ∀ e ∈ errors, ¬ e.field = field := by
          intro e he
          have := List.find?_eq_none.mp hnone e he
          simpa using this
        rw [List.map_append]
        simp only [List.map_cons, List.map_nil]
        rw [List.nodup_append]
        refine ⟨h, List.nodup_singleton _, ?_⟩
        intro x hx hx1
        simp at hx1
        subst hx1
        obtain ⟨e, he, hfe⟩ := List.mem_map.mp hx
        exact hf e he hfe
    · exact h

/-- Claim C1: for every submission that passes validation, the backend
email-sending endpoint is invoked exactly once — the trace of a
validation-passing `handleSubmit` contains the network call exactly once,
whatever the call's outcome. -/
theorem email_invoked_exactly_once (s : ComponentState) (outcome : EmailOutcome)
    (now : String) (h : validateLeadForm s.formData = []) :
    ((handleSubmit s outcome now).2.count Event.emailCall) = 1 := by
  cases outcome <;> simp [handleSubmit, h]

/-- Witness for claim C1 at the concrete valid state `s0`. -/
theorem email_invoked_exactly_once_witness :
    validateLeadForm s0.formData = [] ∧
      ((handleSubmit s0 EmailOutcome.ok "2026-01-01T00:00:00.000Z").2.count Event.emailCall) = 1 :=
  ⟨by decide,
   email_invoked_exactly_once s0 EmailOutcome.ok "2026-01-01T00:00:00.000Z" (by decide)⟩

/-- Claim C2: for every submission that passes validation and whose email
call succeeds, exactly one lead — the submitted name, email and industry
with the submission-time timestamp — is appended to the session store. -/
theorem one_lead_appended_on_success (s : ComponentState) (now : String)
    (h : validateLeadForm s.formData = []) :
    (handleSubmit s EmailOutcome.ok now).1.sessionLeads =
        s.sessionLeads ++ [⟨s.formData.name, s.formData.email, s.formData.industry, now⟩] ∧
      ((handleSubmit s EmailOutcome.ok now).2.count Event.addLeadEvent) = 1 := by
  refine ⟨?_, ?_⟩ <;> simp [handleSubmit, h]

/-- Witness for claim C2 at the concrete valid state `s0`. -/
theorem one_lead_appended_on_success_witness :
    validateLeadForm s0.formData = [] ∧
      ((handleSubmit s0 EmailOutcome.ok "t").1.sessionLeads =
          s0.sessionLeads ++ [⟨s0.formData.name, s0.formData.email, s0.formData.industry, "t"⟩] ∧
        ((handleSubmit s0 EmailOutcome.ok "t").2.count Event.addLeadEvent) = 1) :=
  ⟨by decide, one_lead_appended_on_success s0 "t" (by decide)⟩

/-- Claim C3: when client-side validation yields errors the submission
stops before any remote effect — the endpoint is not invoked, the session
store and the success flag are unchanged, the errors are stored for the
user, and only the validation-error toast is shown. -/
theorem validation_errors_stop_submission (s : ComponentState) (outcome : EmailOutcome)
    (now : String) (h : validateLeadForm s.formData ≠ []) :
    ((handleSubmit s outcome now).2.count Event.emailCall) = 0 ∧
      (handleSubmit s outcome now).1.sessionLeads = s.sessionLeads ∧
      (handleSubmit s outcome now).1.submitted = s.submitted ∧
      (handleSubmit s outcome now).1.validationErrors = validateLeadForm s.formData ∧
      (handleSubmit s outcome now).2 = [Event.toastValidationError] := by
  simp [handleSubmit, h]

/-- Witness for claim C3 at the concrete invalid state `sBad`. -/
theorem validation_errors_stop_submission_witness :
    validateLeadForm sBad.formData ≠ [] ∧
      (((handleSubmit sBad EmailOutcome.ok "t").2.count Event.emailCall) = 0 ∧
        (handleSubmit sBad EmailOutcome.ok "t").1.sessionLeads = sBad.sessionLeads ∧
        (handleSubmit sBad EmailOutcome.ok "t").1.submitted = sBad.submitted ∧
        (handleSubmit sBad EmailOutcome.ok "t").1.validationErrors = validateLeadForm sBad.formData ∧
        (handleSubmit sBad EmailOutcome.ok "t").2 = [Event.toastValidationError]) :=
  ⟨by decide, validation_errors_stop_submission sBad EmailOutcome.ok "t" (by decide)⟩

/-- Claim C4: the session store is an in-memory, process-local list of the
leads collected since page load and is not persisted — the page-load store
is empty, its contents are exactly the leads added by the operations
performed since page load, and a page refresh discards them. -/
theorem session_store_in_memory_only (st : LeadStore) (ops : List StoreOp) :
    initialStore.sessionLeads = [] ∧ pageRefresh st = initialStore ∧
      (runOps ops).sessionLeads = leadsOf ops := by
  refine ⟨rfl, rfl, ?_⟩
  simpa [initialStore] using foldl_sessionLeads ops initialStore

/-- Claim C5: the UI is a two-state machine governed by the single
`submitted` flag — the success view is rendered iff the flag is true, the
mount effect resets the flag so the form view is rendered after mount, and
every render is one of the two views. -/
theorem ui_two_state_toggle (s : ComponentState) :
    (render s = View.success ↔ s.submitted = true) ∧
      render (mount s) = View.form ∧
      (render s = View.success ∨ render s = View.form) := by
  cases hs : s.submitted <;> simp [render, mount, hs]

/-- Counterexample to claim C6 as stated: on a validation-passing
submission whose email call returns an error object, the success flow does
not proceed even though the `catch` handler never runs — the early-return
branch on the returned error, not the try/catch, decides the outcome. -/
theorem email_error_bypasses_catch :
    validateLeadForm s0.formData = [] ∧
      Event.emailCall ∈ (handleSubmit s0 EmailOutcome.emailError "t").2 ∧
      Event.setSubmittedTrue ∉ (handleSubmit s0 EmailOutcome.emailError "t").2 ∧
      (handleSubmit s0 EmailOutcome.emailError "t").1.submitted = false ∧
      Event.catchHandler ∉ (handleSubmit s0 EmailOutcome.emailError "t").2 ∧
      Event.emailErrorReturn ∈ (handleSubmit s0 EmailOutcome.emailError "t").2 := by
  decide

/-- Claim C6 as amended: all failure handling for a validation-passing
submission is scoped to the one API call — the success flow proceeds iff
the call returns without error and without throwing, a returned error is
handled by the early-return branch, and a thrown exception by the catch
handler. -/
theorem failure_branches_scoped_to_email_call (s : ComponentState)
    (outcome : EmailOutcome) (now : String) (h : validateLeadForm s.formData = []) :
    (Event.setSubmittedTrue ∈ (handleSubmit s outcome now).2 ↔ outcome = EmailOutcome.ok) ∧
      (Event.addLeadEvent ∈ (handleSubmit s outcome now).2 ↔ outcome = EmailOutcome.ok) ∧
      (Event.emailErrorReturn ∈ (handleSubmit s outcome now).2 ↔ outcome = EmailOutcome.emailError) ∧
      (Event.catchHandler ∈ (handleSubmit s outcome now).2 ↔ outcome = EmailOutcome.thrown) := by
  cases outcome <;> simp [handleSubmit, h]

/-- Witness for the amended claim C6 at the concrete valid state `s0`. -/
theorem failure_branches_scoped_to_email_call_witness :
    validateLeadForm s0.formData = [] ∧
      ((Event.setSubmittedTrue ∈ (handleSubmit s0 EmailOutcome.ok "t").2 ↔ EmailOutcome.ok = EmailOutcome.ok) ∧
        (Event.addLeadEvent ∈ (handleSubmit s0 EmailOutcome.ok "t").2 ↔ EmailOutcome.ok = EmailOutcome.ok) ∧
        (Event.emailErrorReturn ∈ (handleSubmit s0 EmailOutcome.ok "t").2 ↔ EmailOutcome.ok = EmailOutcome.emailError) ∧
        (Event.catchHandler ∈ (handleSubmit s0 EmailOutcome.ok "t").2 ↔ EmailOutcome.ok = EmailOutcome.thrown)) :=
  ⟨by decide, failure_branches_scoped_to_email_call s0 EmailOutcome.ok "t" (by decide)⟩

/-- Counterexample to claim C7 as stated: on a successful submission the
lead is appended to the session list strictly before the success flag is
toggled, not after it as the claimed order requires. -/
theorem lead_added_before_submitted_flag :
    validateLeadForm s0.formData = [] ∧
      Event.addLeadEvent ∈ (handleSubmit s0 EmailOutcome.ok "t").2 ∧
      Event.setSubmittedTrue ∈ (handleSubmit s0 EmailOutcome.ok "t").2 ∧
      (handleSubmit s0 EmailOutcome.ok "t").2.indexOf Event.addLeadEvent <
        (handleSubmit s0 EmailOutcome.ok "t").2.indexOf Event.setSubmittedTrue := by
  decide

/-- Claim C7 as amended: on a submission that succeeds the observable
effects happen in the order validate, remote call, append the lead, show
the success toast, toggle the success flag to true. -/
theorem success_effect_order (s : ComponentState) (now : String)
    (h : validateLeadForm s.formData = []) :
    (handleSubmit s EmailOutcome.ok now).2 =
        [Event.emailCall, Event.addLeadEvent, Event.toastSuccess, Event.setSubmittedTrue] ∧
      (handleSubmit s EmailOutcome.ok now).1.submitted = true := by
  simp [handleSubmit, h]

/-- Witness for the amended claim C7 at the concrete valid state `s0`. -/
theorem success_effect_order_witness :
    validateLeadForm s0.formData = [] ∧
      ((handleSubmit s0 EmailOutcome.ok "t").2 =
          [Event.emailCall, Event.addLeadEvent, Event.toastSuccess, Event.setSubmittedTrue] ∧
        (handleSubmit s0 EmailOutcome.ok "t").1.submitted = true) :=
  ⟨by decide, success_effect_order s0 "t" (by decide)⟩

/-- Case analysis of one real-time error update: a surviving entry either
came from the previous list with a field other than the edited one, or is
the (replaced or appended) entry for the edited field with its current
invalid check, or the update was a silent no-op (invalid check with empty
message). -/
theorem updateErrors_mem (errors : List ValidationError) (field : String)
    (check : FieldCheck) (e : ValidationError)
    (he : e ∈ updateErrors errors field check) :
    (e ∈ errors ∧ e.field ≠ field) ∨
      (e.field = field ∧ check.isValid = false ∧ check.errorMessage ≠ "") ∨
      (e ∈ errors ∧ check.isValid = false ∧ check.errorMessage = "") := by
  unfold updateErrors at he
  by_cases hv : check.isValid = true
  · rw [if_pos hv] at he
    have hmf := List.mem_filter.mp he
    refine Or.inl ⟨hmf.1, ?_⟩
    simpa using hmf.2
  · have hvf : check.isValid = false := by simpa using hv
    rw [if_neg hv] at he
    by_cases hm : check.errorMessage = ""
    · simp [hm] at he
      exact Or.inr (Or.inr ⟨he, hvf, hm⟩)
    · have hmt : (!(check.errorMessage == "")) = true := by simpa using hm
      rw [if_pos hmt] at he
      cases hfe : errors.find? (fun x => x.field == field) with
      | some e0 =>
          rw [hfe] at he
          obtain ⟨e1, he1, rfl⟩ := List.mem_map.mp he
          by_cases hf : e1.field = field
          · refine Or.inr (Or.inl ⟨?_, hvf, hm⟩)
            simp [hf]
          · have : (e1.field == field) = false := by simpa using hf
            simp [this]
            exact Or.inl ⟨he1, hf⟩
      | none =>
          rw [hfe] at he
          rcases List.mem_append.mp he with hin | hnew
          · have := List.find?_eq_none.mp hfe e hin
            refine Or.inl ⟨hin, ?_⟩
            simpa using this
          · simp at hnew
            subst hnew
            exact Or.inr (Or.inl ⟨rfl, hvf, hm⟩)

/-- Writing one field leaves the value of every other field unchanged. -/
theorem getField_setField_ne (fd : FormData) (field value g : String) (hne : g ≠ field) :
    getField (setField fd field value) g = getField fd g := by
  unfold getField setField
  by_cases g1 : g = "name" <;> by_cases g2 : g = "email" <;>
    by_cases g3 : g = "industry" <;> by_cases f1 : field = "name" <;>
      by_cases f2 : field = "email" <;> by_cases f3 : field = "industry" <;>
        simp_all

/-- Writing one of the three form fields stores exactly the given value. -/
theorem getField_setField_self (fd : FormData) (field value : String)
    (hf : field = "name" ∨ field = "email" ∨ field = "industry") :
    getField (setField fd field value) field = value := by
  rcases hf with rfl | rfl | rfl <;> simp [getField, setField]

/-- A nonempty validation message only arises for one of the three form
fields; for any other field name `validateField` is silent. -/
theorem validateField_message_field (field value : String)
    (h : (validateField field value).errorMessage ≠ "") :
    field = "name" ∨ field = "email" ∨ field = "industry" := by
  by_cases f1 : field = "name" <;> by_cases f2 : field = "email" <;>
    by_cases f3 : field = "industry" <;> simp_all [validateField]

/-- An invalid check with an empty message means the field is none of the
three form fields, so writing it does not change the form data. -/
theorem validateField_silent (field value : String)
    (hva : (validateField field value).isValid = false)
    (hm : (validateField field value).errorMessage = "") (fd : FormData) :
    setField fd field value = fd := by
  by_cases f1 : field = "name"
  · subst f1; unfold validateField at hva hm; split_ifs at hva hm <;> simp_all
  · by_cases f2 : field = "email"
    · subst f2; unfold validateField at hva hm; split_ifs at hva hm <;> simp_all
    · by_cases f3 : field = "industry"
      · subst f3; unfold validateField at hva hm; split_ifs at hva hm <;> simp_all
      · simp [setField, f1, f2, f3]

/-- One real-time update preserves the error-list invariant: every entry
still names one of the three fields and is invalid for the current (just
written) form data. -/
theorem updateErrors_invariant (fd : FormData) (errors : List ValidationError)
    (field value : String)
    (h : ∀ e ∈ errors, (e.field = "name" ∨ e.field = "email" ∨ e.field = "industry") ∧
        (validateField e.field (getField fd e.field)).isValid = false) :
    ∀ e ∈ updateErrors errors field (validateField field value),
      (e.field = "name" ∨ e.field = "email" ∨ e.field = "industry") ∧
        (validateField e.field (getField (setField fd field value) e.field)).isValid = false := by
  intro e he
  rcases updateErrors_mem errors field (validateField field value) e he with
    ⟨hin, hne⟩ | ⟨hf, hinv, hmsg⟩ | ⟨hin, hinv, hmsg⟩
  · obtain ⟨hfield, hval⟩ := h e hin
    exact ⟨hfield, by rw [getField_setField_ne fd field value e.field hne]; exact hval⟩
  · have hfield := validateField_message_field field value hmsg
    refine ⟨by rw [hf]; exact hfield, ?_⟩
    rw [hf, getField_setField_self fd field value hfield]
    exact hinv
  · have hsf := validateField_silent field value hinv hmsg fd
    obtain ⟨hfield, hval⟩ := h e hin
    exact ⟨hfield, by rw [hsf]; exact hval⟩

/-- Every error produced by whole-form validation names one of the three
fields and is invalid for that field's current value. -/
theorem validateLeadForm_mem (fd : FormData) (e : ValidationError)
    (he : e ∈ validateLeadForm fd) :
    (e.field = "name" ∨ e.field = "email" ∨ e.field = "industry") ∧
      (validateField e.field (getField fd e.field)).isValid = false := by
  unfold validateLeadForm checkOne at he
  by_cases h1 : (validateField "name" fd.name).isValid <;>
    by_cases h2 : (validateField "email" fd.email).isValid <;>
      by_cases h3 : (validateField "industry" fd.industry).isValid <;>
        simp [h1, h2, h3] at he <;>
          rcases he with rfl | rfl | rfl <;>
            simp_all [getField]

/-- Whole-form validation passes exactly when all three fields check out. -/
theorem validateLeadForm_eq_nil_iff (fd : FormData) :
    validateLeadForm fd = [] ↔
      (validateField "name" fd.name).isValid = true ∧
        (validateField "email" fd.email).isValid = true ∧
        (validateField "industry" fd.industry).isValid = true := by
  unfold validateLeadForm checkOne
  by_cases h1 : (validateField "name" fd.name).isValid <;>
    by_cases h2 : (validateField "email" fd.email).isValid <;>
      by_cases h3 : (validateField "industry" fd.industry).isValid <;>
        simp [h1, h2, h3]

/-- A valid name is in particular nonempty after trimming. -/
theorem validateField_name_needs_value (value : String)
    (h : (validateField "name" value).isValid = true) : trimChars value.data ≠ [] := by
  intro hnil
  simp [validateField, hnil] at h

/-- A valid email is in particular nonempty after trimming. -/
theorem validateField_email_needs_value (value : String)
    (h : (validateField "email" value).isValid = true) : trimChars value.data ≠ [] := by
  intro hnil
  simp [validateField, hnil] at h

/-- A valid industry is in particular nonempty after trimming. -/
theorem validateField_industry_needs_value (value : String)
    (h : (validateField "industry" value).isValid = true) : trimChars value.data ≠ [] := by
  intro hnil
  simp [validateField, hnil] at h

/-- Componentwise characterisation of the all-touched field states. -/
theorem fieldStates_ext (fs : FieldStates)
    (h1 : fs.name.touched = true) (h2 : fs.name.valid = false)
    (h3 : fs.email.touched = true) (h4 : fs.email.valid = false)
    (h5 : fs.industry.touched = true) (h6 : fs.industry.valid = false) :
    fs = allTouched := by
  obtain ⟨⟨a, b⟩, ⟨c, d⟩, ⟨x, y⟩⟩ := fs
  simp_all [allTouched]

/-- The page-load state satisfies the run-time invariant. -/
theorem stateInv_init : StateInv initialComponentState := by
  refine ⟨⟨rfl, rfl, rfl⟩, rfl, ?_, ?_, ?_, ?_⟩
  · intro hcon; exact absurd rfl hcon
  · intro hcon; exact absurd rfl hcon
  · intro hcon; exact absurd rfl hcon
  · intro e he; cases he

/-- An input edit preserves the run-time invariant: the edited field is
marked touched, `valid` flags are untouched, and the error list keeps
reflecting the current form data. -/
theorem stateInv_handleInputChange (s : ComponentState) (field value : String)
    (h : StateInv s) : StateInv (handleInputChange s field value) := by
  obtain ⟨⟨hv1, hv2, hv3⟩, hsub, ht1, ht2, ht3, herr⟩ := h
  have herr' := updateErrors_invariant s.formData s.validationErrors field value herr
  by_cases f1 : field = "name"
  · subst f1
    exact ⟨⟨hv1, hv2, hv3⟩, hsub, fun _ => rfl, ht2, ht3, herr'⟩
  · by_cases f2 : field = "email"
    · subst f2
      exact ⟨⟨hv1, hv2, hv3⟩, hsub, ht1, fun _ => rfl, ht3, herr'⟩
    · by_cases f3 : field = "industry"
      · subst f3
        exact ⟨⟨hv1, hv2, hv3⟩, hsub, ht1, ht2, fun _ => rfl, herr'⟩
      · have hsf : setField s.formData field value = s.formData := by
          simp [setField, f1, f2, f3]
        have htf : touchField s.fieldStates field = s.fieldStates := by
          simp [touchField, f1, f2, f3]
        refine ⟨⟨?_, ?_, ?_⟩, hsub, ?_, ?_, ?_, ?_⟩ <;>
          simp only [handleInputChange, hsf, htf]
        · exact hv1
        · exact hv2
        · exact hv3
        · exact ht1
        · exact ht2
        · exact ht3
        · simpa [hsf] using herr'

/-- A submission preserves the run-time invariant in all four branches
(validation failure, success, returned email error, thrown exception). -/
theorem stateInv_handleSubmit (s : ComponentState) (outcome : EmailOutcome) (now : String)
    (h : StateInv s) : StateInv (handleSubmit s outcome now).1 := by
  obtain ⟨⟨hv1, hv2, hv3⟩, hsub, ht1, ht2, ht3, herr⟩ := h
  by_cases hv : validateLeadForm s.formData = []
  · cases outcome with
    | ok =>
        refine ⟨⟨?_, ?_, ?_⟩, ?_, ?_, ?_, ?_, ?_⟩ <;>
          simp [handleSubmit, hv, allUntouched, emptyForm, trimChars]
    | emailError =>
        refine ⟨⟨?_, ?_, ?_⟩, ?_, ?_, ?_, ?_, ?_⟩ <;>
          simp [handleSubmit, hv, allTouched]
    | thrown =>
        refine ⟨⟨?_, ?_, ?_⟩, ?_, ?_, ?_, ?_, ?_⟩ <;>
          simp [handleSubmit, hv, allTouched]
  · refine ⟨⟨?_, ?_, ?_⟩, ?_, ?_, ?_, ?_, ?_⟩ <;>
      simp [handleSubmit, hv, allTouched, hsub]
    intro e he
    exact validateLeadForm_mem s.formData e he

/-- A form reset preserves the run-time invariant. -/
theorem stateInv_resetForm (s : ComponentState) (h : StateInv s) : StateInv (resetForm s) := by
  obtain ⟨_, hsub, _, _, _, _⟩ := h
  refine ⟨⟨rfl, rfl, rfl⟩, hsub, ?_, ?_, ?_, ?_⟩
  · intro hcon; exact absurd rfl hcon
  · intro hcon; exact absurd rfl hcon
  · intro hcon; exact absurd rfl hcon
  · intro e he; cases he

/-- A remount only clears the submitted flag, which the invariant does
not mention. -/
theorem stateInv_mount (s : ComponentState) (h : StateInv s) : StateInv (mount s) := h

/-- Every reachable component state satisfies the run-time invariant. -/
theorem reachable_stateInv (s : ComponentState) (hr : Reachable s) : StateInv s := by
  induction hr with
  | init => exact stateInv_init
  | input field value _ ih => exact stateInv_handleInputChange _ field value ih
  | submit outcome now _ ih => exact stateInv_handleSubmit _ outcome now ih
  | reset _ ih => exact stateInv_resetForm _ ih
  | remount _ ih => exact stateInv_mount _ ih

/-- At an invariant state whose form data passes validation, the field
states are exactly all-touched, the error list is empty, and the
component is not submitting: the `setFieldStates` and
`setValidationErrors` calls at the top of `handleSubmit` are no-ops
there. -/
theorem stateInv_ready (s : ComponentState) (hinv : StateInv s)
    (h : validateLeadForm s.formData = []) :
    s.fieldStates = allTouched ∧ s.validationErrors = [] ∧ s.isSubmitting = false := by
  obtain ⟨⟨hv1, hv2, hv3⟩, hsub, ht1, ht2, ht3, herr⟩ := hinv
  obtain ⟨hok1, hok2, hok3⟩ := (validateLeadForm_eq_nil_iff s.formData).mp h
  have hfs : s.fieldStates = allTouched :=
    fieldStates_ext s.fieldStates
      (ht1 (validateField_name_needs_value s.formData.name hok1)) hv1
      (ht2 (validateField_email_needs_value s.formData.email hok2)) hv2
      (ht3 (validateField_industry_needs_value s.formData.industry hok3)) hv3
  refine ⟨hfs, ?_, hsub⟩
  cases hve : s.validationErrors with
  | nil => rfl
  | cons e rest =>
      exfalso
      have hm : e ∈ s.validationErrors := by rw [hve]; exact List.mem_cons_self e rest
      obtain ⟨hfield, hval⟩ := herr e hm
      rcases hfield with hf | hf | hf <;> rw [hf] at hval <;>
        simp only [getField] at hval <;> simp_all

/-- Claim C8: in every reachable state whose form data passes validation,
a failed email call (returned error or thrown exception) leaves the
component state entirely unchanged — session store, submitted flag, form
values, field states, error list and `isSubmitting` — and the trace shows
the call followed only by the error handling of the branch taken, whose
single toast is the error toast. -/
theorem email_failure_is_atomic (s : ComponentState) (outcome : EmailOutcome) (now : String)
    (hr : Reachable s) (h : validateLeadForm s.formData = [])
    (ho : outcome ≠ EmailOutcome.ok) :
    (handleSubmit s outcome now).1 = s ∧
      ((handleSubmit s outcome now).2 =
          [Event.emailCall, Event.toastEmailError, Event.emailErrorReturn] ∨
        (handleSubmit s outcome now).2 =
          [Event.emailCall, Event.catchHandler, Event.toastUnexpectedError]) := by
  obtain ⟨hfs, hve, hsub⟩ := stateInv_ready s (reachable_stateInv s hr) h
  obtain ⟨fd, ve, fs, isub, sub, leads⟩ := s
  dsimp only at hfs hve hsub h
  subst hfs hve hsub
  cases outcome with
  | ok => exact absurd rfl ho
  | emailError => refine ⟨?_, Or.inl ?_⟩ <;> simp [handleSubmit, h]
  | thrown => refine ⟨?_, Or.inr ?_⟩ <;> simp [handleSubmit, h]

/-- Witness for claim C8 at the reachable valid state `sReady`, built by
three input edits from the initial state, with a returned email error. -/
theorem email_failure_is_atomic_witness :
    Reachable sReady ∧ validateLeadForm sReady.formData = [] ∧
      EmailOutcome.emailError ≠ EmailOutcome.ok ∧
      ((handleSubmit sReady EmailOutcome.emailError "t").1 = sReady ∧
        ((handleSubmit sReady EmailOutcome.emailError "t").2 =
            [Event.emailCall, Event.toastEmailError, Event.emailErrorReturn] ∨
          (handleSubmit sReady EmailOutcome.emailError "t").2 =
            [Event.emailCall, Event.catchHandler, Event.toastUnexpectedError])) :=
  ⟨Reachable.input "industry" "technology"
      (Reachable.input "email" "john@example.com"
        (Reachable.input "name" "John Doe" Reachable.init)),
   by decide, by decide,
   email_failure_is_atomic sReady EmailOutcome.emailError "t"
     (Reachable.input "industry" "technology"
       (Reachable.input "email" "john@example.com"
         (Reachable.input "name" "John Doe" Reachable.init)))
     (by decide) (by decide)⟩

/-- Claim C9: every invocation of `handleSubmit` that enters the
submitting phase terminates with `isSubmitting` false on success, on a
returned email error, and on a thrown exception, so the submit button is
not left disabled by a failed submission. -/
theorem submitting_phase_always_ends (s : ComponentState) (outcome : EmailOutcome)
    (now : String) (h : validateLeadForm s.formData = []) :
    (handleSubmit s outcome now).1.isSubmitting = false ∧
      buttonDisabled (handleSubmit s outcome now).1 = false := by
  cases outcome <;> simp [handleSubmit, h, buttonDisabled]

/-- Witness for claim C9 at the concrete valid state `s0` with a thrown
exception. -/
theorem submitting_phase_always_ends_witness :
    validateLeadForm s0.formData = [] ∧
      ((handleSubmit s0 EmailOutcome.thrown "t").1.isSubmitting = false ∧
        buttonDisabled (handleSubmit s0 EmailOutcome.thrown "t").1 = false) :=
  ⟨by decide, submitting_phase_always_ends s0 EmailOutcome.thrown "t" (by decide)⟩

/-- Claim C10: the validation-error list keeps at most one entry per field
name — `handleInputChange` preserves distinctness of the field names
(replace in place, remove on valid, append only when absent), and after
`handleSubmit` the list is the whole-form validation result, which has
distinct field names. -/
theorem validation_errors_one_per_field (s : ComponentState) (field value : String)
    (outcome : EmailOutcome) (now : String)
    (h : (s.validationErrors.map (fun e => e.field)).Nodup) :
    ((handleInputChange s field value).validationErrors.map (fun e => e.field)).Nodup ∧
      (((handleSubmit s outcome now).1.validationErrors).map (fun e => e.field)).Nodup := by
  constructor
  · exact updateErrors_fields_nodup _ _ _ h
  · by_cases hv : validateLeadForm s.formData = []
    · cases outcome <;> simp [handleSubmit, hv]
    · simp only [handleSubmit]
      simp [hv]
      exact validateLeadForm_fields_nodup s.formData

/-- Witness for claim C10 at the concrete state `s0` with an invalid name
keystroke. -/
theorem validation_errors_one_per_field_witness :
    (s0.validationErrors.map (fun e => e.field)).Nodup ∧
      (((handleInputChange s0 "name" "J").validationErrors.map (fun e => e.field)).Nodup ∧
        (((handleSubmit s0 EmailOutcome.ok "t").1.validationErrors).map (fun e => e.field)).Nodup) :=
  ⟨by decide, validation_errors_one_per_field s0 "name" "J" EmailOutcome.ok "t" (by decide)⟩

end LeadCapture
